import Mathlib

/-!
Shallow embedding of the Van keyword-lexicon plugin (src/main.py) and proofs
about its lexicon resolution, keyword matching, template rendering, and
cooldown bookkeeping.

Modelling conventions, used throughout:
* Python strings are Lean `String`s; character-level scans work on `List Char`.
* Python's `re` scans are implemented directly as left-to-right character
  scans with the exact leftmost / non-greedy semantics of the patterns used
  by the source (each pattern is a fixed small shape, so this is feasible).
* Loops whose termination is by a decreasing measure in the source are given
  an explicit fuel argument, always called with a bound that the measure
  argument shows sufficient, so that every definition is structural and
  kernel-reducible.
* Python dicts are association lists; since a dict holds at most one entry
  per key, overwrite and delete are modelled by filtering the key out.
* `\d` and string case conversion are modelled on ASCII, which covers every
  pattern occurring in the repository.
-/

namespace Van

/-- Character-exact prefix test on char lists. -/
def isPre : List Char → List Char → Bool
  | [], _ => true
  | _ :: _, [] => false
  | a :: as, b :: bs => a = b && isPre as bs

/-- Python's substring test `needle in hay`, scanning every suffix of `hay`. -/
def subAt (needle : List Char) : List Char → Bool
  | [] => needle.isEmpty
  | h :: t => isPre needle (h :: t) || subAt needle t

/-- Python `needle in hay` on strings. -/
def strContains (hay needle : String) : Bool :=
  subAt needle.toList hay.toList

/-- Python `str.replace(pat, rep)`: replace all occurrences, scanning left to
right without rescanning replacements.  Fuel is the input length plus one;
each step consumes at least one character (patterns used are non-empty). -/
def pyReplaceL (pat rep : List Char) : Nat → List Char → List Char
  | _, [] => []
  | 0, s => s
  | fuel + 1, c :: rest =>
    if isPre pat (c :: rest) && !pat.isEmpty then
      rep ++ pyReplaceL pat rep fuel ((c :: rest).drop pat.length)
    else
      c :: pyReplaceL pat rep fuel rest

/-- Python `s.replace(pat, rep)` on strings. -/
def pyReplace (s pat rep : String) : String :=
  String.mk (pyReplaceL pat.toList rep.toList (s.toList.length + 1) s.toList)

/-- Splits a char list into its maximal leading run of ASCII digits and the
rest (models a leading `\d+`/`\d*` regex scan). -/
def splitDigits : List Char → List Char × List Char
  | [] => ([], [])
  | c :: rest =>
    if c.isDigit then
      let p := splitDigits rest
      (c :: p.1, p.2)
    else ([], c :: rest)

/-- Numeric value of a list of ASCII digits (models Python `int()` on a digit
string; leading zeros are allowed there). -/
def digitsToNat (ds : List Char) : Nat :=
  ds.foldl (fun n c => n * 10 + (c.toNat - '0'.toNat)) 0

/-- First-match lookup in an association list (models Python dict access). -/
def alookup {κ β : Type} [DecidableEq κ] (k : κ) : List (κ × β) → Option β
  | [] => none
  | (a, b) :: t => if a = k then some b else alookup k t

/-- Dict overwrite `d[k] = v`, modelled by removing the key and appending.
Python dicts hold at most one entry per key, so this is observationally the
dict update (lookup-wise). -/
def aset {κ β : Type} [DecidableEq κ] (k : κ) (v : β) (l : List (κ × β)) :
    List (κ × β) :=
  l.filter (fun p => decide (p.1 ≠ k)) ++ [(k, v)]

/-- Dict delete `del d[k]`, modelled by filtering the key out. -/
def aerase {κ β : Type} [DecidableEq κ] (k : κ) (l : List (κ × β)) :
    List (κ × β) :=
  l.filter (fun p => decide (p.1 ≠ k))

/-- Lexicon-id resolution, translated from `KeywordManager.get_lexicon_id`
(src/main.py lines 496-523).  `select_config` models select.txt (per-user
override), `switch_config` models switch.txt (per-group override).  Note the
source returns the user's entry whenever the key is present, without checking
that its value is non-empty, while the group entry is additionally required
to be a non-empty string. -/
def get_lexicon_id (select_config switch_config : List (String × String))
    (group_id user_id : String) : String :=
  match (if user_id ≠ "" then alookup user_id select_config else none) with
  | some v => v
  | none =>
    match (if group_id ≠ "" then alookup group_id switch_config else none) with
    | some w =>
      if w ≠ "" then w
      else if group_id = "" then "private_" ++ user_id else group_id
    | none =>
      if group_id = "" then "private_" ++ user_id else group_id

/-! Wildcard matching (`KeywordManager.match_wildcard`, lines 646-669).
The source escapes the pattern, rewrites every `[n.<digits>]` occurrence into
a non-greedy anchored group `(.+?)`, matches `^...$` against the text, and
assigns the captured groups into a 6-slot array indexed by each
placeholder's numeric suffix. -/

/-- A compiled wildcard-pattern segment: literal text, or one `[n.k]`
placeholder (which compiles to the non-greedy group `(.+?)`). -/
inductive Seg where
  | lit (cs : List Char)
  | ph (k : Nat)
deriving DecidableEq, Repr

/-- Placeholder index of a segment, if it is one. -/
def segPh : Seg → Option Nat
  | .ph k => some k
  | .lit _ => none

/-- Wraps a pending literal into a segment list (dropping empty literals). -/
def emitLit (cs : List Char) : List Seg :=
  if cs.isEmpty then [] else [Seg.lit cs]

/-- Pattern scanner: finds the left-to-right non-overlapping occurrences of
`[n.<digits>]` (exactly the occurrences `re.sub`/`re.findall` find on the
escaped pattern) and splits the pattern into literal and placeholder
segments.  `acc` is the pending literal in reverse; fuel is input length plus
one (each step consumes at least one character). -/
def parseSegsF : Nat → List Char → List Char → List Seg
  | 0, acc, rest => emitLit (acc.reverse ++ rest)
  | _ + 1, acc, [] => emitLit acc.reverse
  | fuel + 1, acc, '[' :: rest =>
    match rest with
    | 'n' :: '.' :: rest2 =>
      match splitDigits rest2 with
      | ([], _) => parseSegsF fuel ('[' :: acc) rest
      | (ds, rest3) =>
        match rest3 with
        | ']' :: rest4 =>
          emitLit acc.reverse ++ (Seg.ph (digitsToNat ds) :: parseSegsF fuel [] rest4)
        | _ => parseSegsF fuel ('[' :: acc) rest
    | _ => parseSegsF fuel ('[' :: acc) rest
  | fuel + 1, acc, c :: rest => parseSegsF fuel (c :: acc) rest

/-- Compiled segment list of a wildcard pattern. -/
def mwSegs (pattern : String) : List Seg :=
  parseSegsF (pattern.toList.length + 1) [] pattern.toList

/-- Backtracking matcher for the anchored compiled pattern `^...$` where each
placeholder is the non-greedy `(.+?)` (one-or-more characters, `.` excluding
newline, shorter captures preferred depth-first exactly as Python's regex
engine does).  `$` also accepts a single trailing newline.  Returns the
captured groups in placeholder order.  Fuel `segs.length + s.length + 1`
suffices: every recursive step decreases `segs.length + s.length`. -/
def matchSegs : Nat → List Seg → List Char → Option (List (List Char))
  | _, [], [] => some []
  | _, [], ['\n'] => some []
  | _, [], _ => none
  | 0, _ :: _, _ => none
  | fuel + 1, .lit l :: rest, s =>
    if isPre l s then matchSegs fuel rest (s.drop l.length) else none
  | _ + 1, .ph _ :: _, [] => none
  | fuel + 1, .ph k :: rest, c :: s' =>
    if c = '\n' then none
    else
      match matchSegs fuel rest s' with
      | some gs => some ([c] :: gs)
      | none =>
        match matchSegs fuel (Seg.ph k :: rest) s' with
        | some (g :: gs) => some ((c :: g) :: gs)
        | _ => none

/-- Captured groups of `match_wildcard`'s regex match, if the text matches. -/
def mwGroups (pattern text : String) : Option (List (List Char)) :=
  matchSegs ((mwSegs pattern).length + text.toList.length + 1)
    (mwSegs pattern) text.toList

/-- Slot assignment loop of `match_wildcard`: each (placeholder index,
captured group) pair is written into the 6-slot result in order of
appearance; indices ≥ 6 are silently ignored. -/
def writeSlots (init : List String) (pairs : List (Nat × String)) :
    List String :=
  pairs.foldl (fun r p => if p.1 < 6 then r.set p.1 p.2 else r) init

/-- Placeholder indices of a pattern, in order of appearance (models
`re.findall(r'\[n\.(\d+)\]', pattern)`). -/
def phIdxs (pattern : String) : List Nat :=
  (mwSegs pattern).filterMap segPh

/-- Wildcard matcher, translated from `KeywordManager.match_wildcard`
(src/main.py lines 646-669): on a regex match, builds the 6-slot capture
array (`n.0` to `n.5`), otherwise returns none. -/
def match_wildcard (pattern text : String) : Option (List String) :=
  match mwGroups pattern text with
  | none => none
  | some gs =>
    some (writeSlots (List.replicate 6 "")
      ((phIdxs pattern).zip (gs.map String.mk)))

/-! Lexicon documents and keyword search (`KeywordManager.search_keyword`,
src/main.py lines 574-644). -/

/-- A rule value: the response-template list `"r"` and the visibility tag
`"s"` (`value.get("s")` may be absent in a hand-edited file, hence `Option`;
0 = fuzzy, 1 = exact, 10 = admin-gated). -/
structure Rule where
  r : List String
  s : Option Int
deriving DecidableEq, Repr

/-- A lexicon document is the `"work"` list; every item created by the code
(`add_keyword`, the builtin importer) is a single-key dict, modelled as one
(pattern, rule) pair. -/
abbrev Doc := List (String × Rule)

/-- The in-memory document store (`self.lexicons` plus the files behind it). -/
abbrev Store := List (String × Doc)

/-- Document for a lexicon id, as `get_lexicon` produces it: a missing
document is synthesized as the empty document `{"work": []}`. -/
def storeGet (store : Store) (lexicon_id : String) : Doc :=
  (alookup lexicon_id store).getD []

/-- Match type of a search hit. -/
inductive MType where
  | wildcard
  | exact
  | fuzzy
deriving DecidableEq, Repr

/-- Search result, mirroring the dict returned by `search_keyword`.
`responses` is the rule's full response list; the source draws one of them
uniformly at random (`random.choice(value["r"])`), which the model keeps as
the list plus the non-deterministic choice left to the caller.  `captures`
is the dict's `"matches"` entry (renamed: `matches` is reserved in Lean). -/
structure MatchResult where
  mtype : MType
  responses : List String
  captures : List String
  lexicon_id : String
  item_index : Nat
  keyword : String
deriving DecidableEq, Repr

/-- Per-rule check in the scan order of the source (lines 597-638): the
admin gate (`s == 10` skips the rule for non-privileged callers) comes
first; then the wildcard check if the pattern contains `"[n."`; then exact
(`s == 1` and pattern equals text); then fuzzy (`s == 0` and pattern is a
substring of text). -/
def pairMatch (text : String) (isAdmin : Bool) (k : String) (v : Rule) :
    Option (MType × List String) :=
  if v.s = some 10 ∧ isAdmin = false then none
  else
    match (if strContains k "[n." then match_wildcard k text else none) with
    | some m => some (.wildcard, m)
    | none =>
      if v.s = some 1 ∧ k = text then some (.exact, [])
      else if v.s = some 0 ∧ strContains text k then some (.fuzzy, [])
      else none

/-- Scans a document's rules in order, tracking the item index. -/
def searchDocAux (text : String) (isAdmin : Bool) :
    Nat → Doc → Option (Nat × String × Rule × MType × List String)
  | _, [] => none
  | idx, (k, v) :: rest =>
    match pairMatch text isAdmin k v with
    | some (mt, ms) => some (idx, k, v, mt, ms)
    | none => searchDocAux text isAdmin (idx + 1) rest

/-- First matching rule of a document, with its item index. -/
def searchDoc (doc : Doc) (text : String) (isAdmin : Bool) :
    Option (Nat × String × Rule × MType × List String) :=
  searchDocAux text isAdmin 0 doc

/-- Scans the lexicon-id list in order, returning the first document hit. -/
def searchList (store : Store) (text : String) (isAdmin : Bool) :
    List String → Option MatchResult
  | [] => none
  | lid :: rest =>
    match searchDoc (storeGet store lid) text isAdmin with
    | some (i, k, v, mt, ms) =>
      some ⟨mt, v.r, ms, lid, i, k⟩
    | none => searchList store text isAdmin rest

/-- Keyword search, translated from `KeywordManager.search_keyword`
(src/main.py lines 574-644): search order is the builtin document, then the
resolved lexicon id, then — in a group, when the resolved id differs — the
group's own id, or — in a direct message, when the resolved id differs —
`private_<user_id>`. -/
def search_keyword (store : Store)
    (select_config switch_config : List (String × String))
    (text group_id user_id : String) (isAdmin : Bool) : Option MatchResult :=
  let current := get_lexicon_id select_config switch_config group_id user_id
  let ids := ["builtin_default", current]
    ++ (if group_id ≠ "" ∧ current ≠ group_id then [group_id] else [])
    ++ (if group_id = "" ∧ current ≠ "private_" ++ user_id
        then ["private_" ++ user_id] else [])
  searchList store text isAdmin ids

/-! Cooldown bookkeeping (`CoolingManager`, src/main.py lines 150-279).
Time is modelled as an exact rational (`time.time()` is a float); the file
behind `_load_cooling_data` is outside the model, so a lexicon whose table
is not yet in memory gets the empty table installed, which is the fresh
(no-file) case. -/

/-- Result of `check_cooling`: Python returns `False` (clear) or a positive
remaining-seconds int. -/
inductive CoolResult where
  | clear
  | remaining (n : Int)
deriving DecidableEq, Repr

/-- In-memory cooling state `self._cooling_data`: per cooling key
(`"cooling_" ++ lexicon_id`), a table from (user_id, item_index) to the
absolute expiry time. -/
abbrev CoolState := List (String × List ((String × Nat) × ℚ))

/-- Python `int()` on a rational: truncation toward zero. -/
def pyTrunc (q : ℚ) : Int :=
  if 0 ≤ q then ⌊q⌋ else -⌊-q⌋

/-- Cooldown query, translated from `CoolingManager.check_cooling`
(src/main.py lines 160-184): an expired entry (`now >= expire_time`) is
deleted and clear is returned; otherwise the truncated remaining seconds are
returned when positive, clear when the truncation is not positive (the entry
is kept in that case). -/
def check_cooling (st : CoolState) (user_id lexicon_id : String)
    (item_index : Nat) (now : ℚ) : CoolResult × CoolState :=
  let ck := "cooling_" ++ lexicon_id
  let p : List ((String × Nat) × ℚ) × CoolState :=
    match alookup ck st with
    | some tb => (tb, st)
    | none => ([], aset ck [] st)
  match alookup (user_id, item_index) p.1 with
  | none => (.clear, p.2)
  | some expire_time =>
    if now ≥ expire_time then
      (.clear, aset ck (aerase (user_id, item_index) p.1) p.2)
    else
      let remaining := pyTrunc (expire_time - now)
      if remaining > 0 then (.remaining remaining, p.2) else (.clear, p.2)

/-- Cooldown insert, translated from `CoolingManager.set_cooling`
(src/main.py lines 186-200): overwrites the entry with
`expire_time = now + seconds`.  The debounced save is outside the model. -/
def set_cooling (st : CoolState) (user_id lexicon_id : String)
    (item_index : Nat) (seconds : Int) (now : ℚ) : CoolState :=
  let ck := "cooling_" ++ lexicon_id
  let tb := (alookup ck st).getD []
  aset ck (aset (user_id, item_index) (now + (seconds : ℚ)) tb) st

/-! Rule insertion (`KeywordManager.add_keyword`, src/main.py lines
876-896). -/

/-- Full-width punctuation folding applied when the `mistake_turn_type`
configuration flag is on (lines 887-890). -/
def sanitizeKeyword (k : String) : String :=
  pyReplace (pyReplace (pyReplace (pyReplace (pyReplace (pyReplace
    (pyReplace k "【" "[") "】" "]") "（" "(") "）" ")") "｛" "\x7b")
    "｝" "\x7d") "：" ":"

/-- Rule insertion, translated from `KeywordManager.add_keyword` (src/main.py
lines 876-896), acting on the resolved document's `"work"` list: if any item
already holds the incoming pattern the call fails; otherwise the pattern —
folded by `sanitizeKeyword` only when the flag is on, and only after the
duplicate check — is appended with a one-response rule.  Returns (success,
message, updated work list). -/
def add_keyword (mistake_turn_type : Bool) (work : Doc)
    (keyword response : String) (mode : Int) : Bool × String × Doc :=
  if work.any (fun it => it.1 = keyword) then
    (false, "词条已存在", work)
  else
    let kw := if mistake_turn_type then sanitizeKeyword keyword else keyword
    (true, "添加成功", work ++ [(kw, ⟨[response], some mode⟩)])

/-! Arithmetic evaluation (`SafeMathEvaluator.evaluate`, src/main.py lines
34-69, on its primary path with `simpleeval` importable). -/

/-- A Python number: int, or float modelled as an exact rational. -/
inductive PyNum where
  | pint (i : Int)
  | pfloat (q : ℚ)
deriving DecidableEq, Repr

/-- Numeric value of a Python number. -/
def PyNum.toQ : PyNum → ℚ
  | .pint i => (i : ℚ)
  | .pfloat q => q

/-- Zero test (for the division guards). -/
def PyNum.isZero : PyNum → Bool
  | .pint i => i = 0
  | .pfloat q => q = 0

/-- Python `+`, int-preserving. -/
def pnAdd (a b : PyNum) : PyNum :=
  match a, b with
  | .pint x, .pint y => .pint (x + y)
  | _, _ => .pfloat (a.toQ + b.toQ)

/-- Python `-`, int-preserving. -/
def pnSub (a b : PyNum) : PyNum :=
  match a, b with
  | .pint x, .pint y => .pint (x - y)
  | _, _ => .pfloat (a.toQ - b.toQ)

/-- Python `*`, int-preserving. -/
def pnMul (a b : PyNum) : PyNum :=
  match a, b with
  | .pint x, .pint y => .pint (x * y)
  | _, _ => .pfloat (a.toQ * b.toQ)

/-- Python `/` (true division, always float; `ZeroDivisionError` fails). -/
def pnDiv (a b : PyNum) : Option PyNum :=
  if b.isZero then none else some (.pfloat (a.toQ / b.toQ))

/-- Python `//` (floor division; `ZeroDivisionError` fails). -/
def pnFloorDiv (a b : PyNum) : Option PyNum :=
  if b.isZero then none
  else
    match a, b with
    | .pint x, .pint y => some (.pint (Int.fdiv x y))
    | _, _ => some (.pfloat ((⌊a.toQ / b.toQ⌋ : ℤ) : ℚ))

/-- Python unary minus. -/
def pnNeg : PyNum → PyNum
  | .pint x => .pint (-x)
  | .pfloat q => .pfloat (-q)

/-- Python `**`.  A negative exponent on a zero base raises; a genuinely
non-integral float exponent is outside the rational model and is
conservatively mapped to failure (no claim reaches it). -/
def pnPow (a b : PyNum) : Option PyNum :=
  match a, b with
  | .pint x, .pint n =>
    if 0 ≤ n then some (.pint (x ^ n.toNat))
    else if x = 0 then none
    else some (.pfloat ((x : ℚ) ^ (n : ℤ)))
  | _, .pint n =>
    if a.toQ = 0 ∧ n < 0 then none else some (.pfloat (a.toQ ^ (n : ℤ)))
  | _, .pfloat q =>
    if q.den = 1 then
      if a.toQ = 0 ∧ q.num < 0 then none else some (.pfloat (a.toQ ^ q.num))
    else none

/-- Skips the spaces between tokens (space is the only whitespace in the
safe character set). -/
def skipSp : List Char → List Char
  | ' ' :: rest => skipSp rest
  | s => s

/-- Python decimal-int-literal validity: a run of zeros, or no leading
zero (`010` is a syntax error, `000` is zero). -/
def validIntLit (ds : List Char) : Bool :=
  ds.all (fun c => c = '0') || ds.headD '0' ≠ '0'

/-- Value of a float literal with integer digits `ds` and fractional digits
`ds2`. -/
def floatVal (ds ds2 : List Char) : ℚ :=
  (digitsToNat ds : ℚ) + (digitsToNat ds2 : ℚ) / (10 : ℚ) ^ ds2.length

/-- Parses a numeric literal: `d+`, `d+.d*`, or `.d+`. -/
def parseNum (s : List Char) : Option (PyNum × List Char) :=
  let p := splitDigits s
  match p.2 with
  | '.' :: r2 =>
    let p2 := splitDigits r2
    if p.1.isEmpty && p2.1.isEmpty then none
    else some (.pfloat (floatVal p.1 p2.1), p2.2)
  | _ =>
    if p.1.isEmpty then none
    else if validIntLit p.1 then some (.pint (digitsToNat p.1 : Int), p.2)
    else none

mutual

/-- Additive level of the Python expression grammar reachable from the safe
character set. -/
def parseE : Nat → List Char → Option (PyNum × List Char)
  | 0, _ => none
  | fuel + 1, s => do
    let (t, r) ← parseT fuel s
    parseEL fuel t r

/-- Left-associative `+`/`-` chain. -/
def parseEL : Nat → PyNum → List Char → Option (PyNum × List Char)
  | 0, _, _ => none
  | fuel + 1, acc, s =>
    match skipSp s with
    | '+' :: r => do
      let (t, r2) ← parseT fuel r
      parseEL fuel (pnAdd acc t) r2
    | '-' :: r => do
      let (t, r2) ← parseT fuel r
      parseEL fuel (pnSub acc t) r2
    | r => some (acc, r)

/-- Multiplicative level. -/
def parseT : Nat → List Char → Option (PyNum × List Char)
  | 0, _ => none
  | fuel + 1, s => do
    let (u, r) ← parseU fuel s
    parseTL fuel u r

/-- Left-associative `*`/`/`/`//` chain (a `**` never reaches this level:
the power level below consumes it). -/
def parseTL : Nat → PyNum → List Char → Option (PyNum × List Char)
  | 0, _, _ => none
  | fuel + 1, acc, s =>
    match skipSp s with
    | '/' :: '/' :: r => do
      let (u, r2) ← parseU fuel r
      let v ← pnFloorDiv acc u
      parseTL fuel v r2
    | '/' :: r => do
      let (u, r2) ← parseU fuel r
      let v ← pnDiv acc u
      parseTL fuel v r2
    | '*' :: r => do
      let (u, r2) ← parseU fuel r
      parseTL fuel (pnMul acc u) r2
    | r => some (acc, r)

/-- Unary `+`/`-` chain (binding looser than `**` on its left, as in
Python). -/
def parseU : Nat → List Char → Option (PyNum × List Char)
  | 0, _ => none
  | fuel + 1, s =>
    match skipSp s with
    | '-' :: r => do
      let (v, r2) ← parseU fuel r
      some (pnNeg v, r2)
    | '+' :: r => parseU fuel r
    | r => parseP fuel r

/-- Power level: atom, optionally `**` with a right-associative exponent
that re-admits unary signs. -/
def parseP : Nat → List Char → Option (PyNum × List Char)
  | 0, _ => none
  | fuel + 1, s => do
    let (a, r) ← parseAtom fuel s
    match skipSp r with
    | '*' :: '*' :: r2 => do
      let (e, r3) ← parseU fuel r2
      let v ← pnPow a e
      some (v, r3)
    | _ => some (a, r)

/-- Parenthesized expression or numeric literal. -/
def parseAtom : Nat → List Char → Option (PyNum × List Char)
  | 0, _ => none
  | fuel + 1, s =>
    match skipSp s with
    | '(' :: r => do
      let (v, r2) ← parseE fuel r
      match skipSp r2 with
      | ')' :: r3 => some (v, r3)
      | _ => none
    | r => parseNum r

end

/-- Characters admitted by the evaluator's safety guard. -/
def safeChars : List Char := "0123456789+-*/.() ".toList

/-- Collapses a whole-number float result to an int
(`result.is_integer()`). -/
def collapseNum : PyNum → PyNum
  | .pfloat q => if q.den = 1 then .pint q.num else .pfloat q
  | v => v

/-- Python whitespace (ASCII model of `str.strip()`'s default set). -/
def isPySpace (c : Char) : Bool :=
  c = ' ' || c = '\t' || c = '\n' || c = '\r' || c = '\x0b' || c = '\x0c'

/-- Python `str.strip()` on a char list. -/
def pyStripL (l : List Char) : List Char :=
  ((l.dropWhile isPySpace).reverse.dropWhile isPySpace).reverse

/-- Python `str.strip()`. -/
def pyStrip (s : String) : String := String.mk (pyStripL s.toList)

/-- Arithmetic evaluator, translated from `SafeMathEvaluator.evaluate`
(src/main.py lines 34-69) on its primary path (`simpleeval` importable):
empty input fails; the expression is stripped and every character must lie
in the safe set; the expression is then parsed and evaluated with Python
semantics over the grammar reachable from safe characters (int/float
literals, unary signs, `+ - * / // **`, parentheses); unparsable input and
division by zero fail (the source maps every raised error to `None`); a
whole-number float result collapses to an int.  The result cache of the
source is semantically transparent (the function is deterministic) and not
modelled; `simpleeval`'s large-operand guards are not modelled. -/
def evaluate (expr : String) : Option PyNum :=
  if expr = "" then none
  else
    let e := pyStripL expr.toList
    if e.all (fun c => safeChars.contains c) then
      match parseE (2 * e.length + 10) e with
      | some (v, r) => if skipSp r = [] then some (collapseNum v) else none
      | none => none
    else none

/-- Fractional-digit expansion of a rational in `[0, 1)`. -/
def fracDigits : Nat → ℚ → List Char
  | 0, _ => []
  | k + 1, q =>
    let q10 := q * 10
    let d := (⌊q10⌋ : ℤ).toNat
    Char.ofNat ('0'.toNat + d) :: fracDigits k (q10 - (d : ℚ))

/-- Drops trailing zero digits, keeping at least one digit. -/
def stripZeros (l : List Char) : List Char :=
  let r := l.reverse.dropWhile (fun c => c = '0')
  if r.isEmpty then ['0'] else r.reverse

/-- Printer for non-integer float results (Python prints the shortest
round-tripping decimal of the IEEE double; modelled as the first 17
fractional digits of the exact rational, trailing zeros removed — no claim
depends on this printer). -/
def floatRepr (q : ℚ) : String :=
  let a := |q|
  let ip := (⌊a⌋ : ℤ).toNat
  (if q < 0 then "-" else "") ++ toString ip ++ "." ++
    String.mk (stripZeros (fracDigits 17 (a - (ip : ℚ))))

/-- Python `str()` of a numeric result. -/
def pyStr : PyNum → String
  | .pint i => toString i
  | .pfloat q => floatRepr q

/-! Template rendering (`KeywordManager.process_response` and
`parse_special_commands`, src/main.py lines 671-873). -/

/-- Message context handed to the renderer by the host platform:
`event.get_sender_id()`, `event.get_group_id() or ""`,
`event.get_sender_name() or sender_id`, `event.self_id`,
`event.message_obj.message_id`. -/
structure Ctx where
  sender_id : String
  group_id : String
  sender_name : String
  bot_id : String
  message_id : String
deriving DecidableEq, Repr

/-- Render-time clock (the components of `datetime.now()` read by the time
pass). -/
structure Now where
  year : Nat
  month : Nat
  day : Nat
  hour : Nat
  minute : Nat
  second : Nat
deriving DecidableEq, Repr

/-- Membership in the character class `[\d\w/.:?=&-]` of the `.t` cleaner:
ASCII alphanumerics, underscore, the listed punctuation, or any non-ASCII
character (Python's unicode `\w` covers the CJK text this repository uses;
non-ASCII non-word punctuation is the only divergence, untouched by the
claims). -/
def tChar (c : Char) : Bool :=
  c.isAlphanum || c = '_' || c = '/' || c = '.' || c = ':' || c = '?' ||
  c = '=' || c = '&' || c = '-' || 128 ≤ c.toNat

/-- First match of `[\d\w/.:?=&-]+` within a capture (`re.search`). -/
def firstTRun (s : String) : Option String :=
  match s.toList.dropWhile (fun c => !tChar c) with
  | [] => none
  | l => some (String.mk (l.takeWhile tChar))

/-- Wildcard-substitution pass of `process_response` (lines 683-690): for
each slot 1-5 holding a non-empty capture, `[n.i]` is replaced by the
capture, then `[n.i.t]` by the capture's first safe run when one exists. -/
def wildcardSubst (captures : List String) (text : String) : String :=
  [1, 2, 3, 4, 5].foldl (fun t i =>
    let m := captures.getD i ""
    if i < captures.length ∧ m ≠ "" then
      let t1 := pyReplace t ("[n." ++ toString i ++ "]") m
      match firstTRun m with
      | some cm => pyReplace t1 ("[n." ++ toString i ++ ".t]") cm
      | none => t1
    else t) text

/-- Context-variable pass of `process_response` (lines 692-723): literal
replace-all of the sender, group, name, card, bot and message-id tokens, in
source order. -/
def ctxVars (ctx : Ctx) (t : String) : String :=
  pyReplace (pyReplace (pyReplace (pyReplace (pyReplace (pyReplace
    (pyReplace t "[qq]" ctx.sender_id) "[group]" ctx.group_id)
    "[name]" ctx.sender_name) "[card]" ctx.sender_name)
    "[ai]" ctx.bot_id) "[id]" ctx.message_id) "[消息id]" ctx.message_id

/-- Leftmost match of `\((\d+)-(\d+)\)` (the randomization directive):
(text before the match, first number, second number, text after). -/
def findRand : List Char → Option (List Char × Nat × Nat × List Char)
  | [] => none
  | '(' :: rest =>
    let k : Option (Nat × Nat × List Char) :=
      match splitDigits rest with
      | ([], _) => none
      | (ds1, r1) =>
        match r1 with
        | '-' :: r2 =>
          match splitDigits r2 with
          | ([], _) => none
          | (ds2, r3) =>
            match r3 with
            | ')' :: r4 => some (digitsToNat ds1, digitsToNat ds2, r4)
            | _ => none
        | _ => none
    match k with
    | some (a, b, post) => some ([], a, b, post)
    | none =>
      match findRand rest with
      | some (pre, a, b, post) => some ('(' :: pre, a, b, post)
      | none => none
  | c :: rest =>
    match findRand rest with
    | some (pre, a, b, post) => some (c :: pre, a, b, post)
    | none => none

/-- Number of opening parentheses: each successful replacement of the
randomization and arithmetic loops removes at least one and inserts none,
so this plus one bounds the iteration count of those loops. -/
def countOpen (l : List Char) : Nat :=
  l.foldl (fun n c => if c = '(' then n + 1 else n) 0

/-- One draw of `random.randint(a, b)`: the drawn value is folded from the
externally supplied entropy `rng k` and always lies in `[a, b]`; an empty
range (`a > b`) raises `ValueError`, which the renderer does not catch. -/
def randint (rng : Nat → Nat) (k a b : Nat) : Except Unit Nat :=
  if a ≤ b then .ok (a + rng k % (b - a + 1)) else .error ()

/-- Randomization pass of `process_response` (lines 726-733): repeatedly
find the leftmost `\((\d+)-(\d+)\)` and replace it by a fresh draw, until no
match remains. -/
def randomPass (rng : Nat → Nat) : Nat → Nat → List Char → Except Unit (List Char)
  | 0, _, t => .ok t
  | fuel + 1, k, t =>
    match findRand t with
    | none => .ok t
    | some (pre, a, b, post) =>
      match randint rng k a b with
      | .error e => .error e
      | .ok n => randomPass rng fuel (k + 1) (pre ++ (toString n).toList ++ post)

/-- Time-variable pass of `process_response` (lines 736-747): global
substitution of the six literal clock tokens, in source order. -/
def timePass (now : Now) (t : String) : String :=
  pyReplace (pyReplace (pyReplace (pyReplace (pyReplace (pyReplace
    t "(Y)" (toString now.year)) "(M)" (toString now.month))
    "(D)" (toString now.day)) "(h)" (toString now.hour))
    "(m)" (toString now.minute)) "(s)" (toString now.second)

/-- Leftmost match of `\(\+([^\)]+)\)` (the arithmetic directive): (text
before the match, the expression characters, text after). -/
def findArith : List Char → Option (List Char × List Char × List Char)
  | [] => none
  | '(' :: '+' :: rest =>
    let e := rest.takeWhile (fun c => c ≠ ')')
    (match rest.dropWhile (fun c => c ≠ ')') with
     | ')' :: r2 =>
       if e.isEmpty then
         match findArith ('+' :: rest) with
         | some (pre, e2, post) => some ('(' :: pre, e2, post)
         | none => none
       else some ([], e, r2)
     | _ =>
       match findArith ('+' :: rest) with
       | some (pre, e2, post) => some ('(' :: pre, e2, post)
       | none => none)
  | c :: rest =>
    match findArith rest with
    | some (pre, e2, post) => some (c :: pre, e2, post)
    | none => none

/-- Arithmetic pass of `process_response` (lines 750-765): repeatedly find
the leftmost `\(\+EXPR\)`; a successful evaluation splices in the printed
result and the loop continues; any failure stops the loop, leaving the text
exactly as it stands. -/
def arithLoop : Nat → List Char → List Char
  | 0, t => t
  | fuel + 1, t =>
    match findArith t with
    | none => t
    | some (pre, e, post) =>
      match evaluate (String.mk e) with
      | none => t
      | some v => arithLoop fuel (pre ++ (pyStr v).toList ++ post)

/-- The comparison-operator characters of the conditional block. -/
def isOpC (c : Char) : Bool := c = '>' || c = '<' || c = '='

/-- Scans for the first character satisfying `p`, failing at a newline or
the end (the `(.*?)` parts of the conditional pattern cannot span a
newline): yields the characters before it and after it. -/
def scanStop (p : Char → Bool) : List Char → Option (List Char × Char × List Char)
  | [] => none
  | c :: rest =>
    if c = '\n' then none
    else if p c then some ([], c, rest)
    else
      match scanStop p rest with
      | some (a, x, r) => some (c :: a, x, r)
      | none => none

/-- Completes a conditional block right after a `{`: group A runs to the
first operator character, group B to the first `}` after it (the non-greedy
semantics of `\{(.*?)([><=])(.*?)\}`; if the first operator has no following
`}` in its newline window, no later operator has one either, so no further
backtracking arises). -/
def tryCondAt (rest : List Char) : Option (List Char × Char × List Char × List Char) :=
  match scanStop isOpC rest with
  | none => none
  | some (a, op, r2) =>
    match scanStop (fun c => c = '\x7d') r2 with
    | none => none
    | some (b, _, r3) => some (a, op, b, r3)

/-- Leftmost match of `\{(.*?)([><=])(.*?)\}` (the conditional block):
(text before, group A, operator, group B, text after). -/
def findCondMatch : List Char → Option (List Char × List Char × Char × List Char × List Char)
  | [] => none
  | c :: rest =>
    if c = '\x7b' then
      match tryCondAt rest with
      | some (a, op, b, r3) => some ([], a, op, b, r3)
      | none =>
        match findCondMatch rest with
        | some (pre, a, op, b, post) => some (c :: pre, a, op, b, post)
        | none => none
    else
      match findCondMatch rest with
      | some (pre, a, op, b, post) => some (c :: pre, a, op, b, post)
      | none => none

/-- Global removal `re.sub(r'\{.*?[><=].*?\}', '', text)`: removes every
non-overlapping leftmost match, continuing after each match. -/
def condStripF : Nat → List Char → List Char
  | 0, t => t
  | fuel + 1, t =>
    match findCondMatch t with
    | none => t
    | some (pre, _, _, _, post) => pre ++ condStripF fuel post

/-- Python `str.isdigit()` (ASCII model): non-empty and all digits. -/
def pyIsDigit (s : String) : Bool :=
  !s.toList.isEmpty && s.toList.all Char.isDigit

/-- Code-point lexicographic comparison (Python `<` on strings). -/
def strLtL : List Char → List Char → Bool
  | [], [] => false
  | [], _ :: _ => true
  | _ :: _, [] => false
  | a :: as, b :: bs => a.toNat < b.toNat || (a = b && strLtL as bs)

/-- Conditional evaluation (lines 773-786): each side is read as an int when
`isdigit` holds, else kept as the raw string; `>`/`<` compare two ints or
two strings and raise `TypeError` — which the source does not catch — on a
mixed pair; `=` compares the `str()` images of the two values. -/
def condEval (a : String) (op : Char) (b : String) : Except Unit Bool :=
  let aD := pyIsDigit a
  let bD := pyIsDigit b
  if op = '=' then
    let ca := if aD then toString (digitsToNat a.toList : Int) else a
    let cb := if bD then toString (digitsToNat b.toList : Int) else b
    .ok (ca = cb)
  else if op = '>' then
    if aD && bD then .ok (decide ((digitsToNat b.toList : Int) < (digitsToNat a.toList : Int)))
    else if !aD && !bD then .ok (strLtL b.toList a.toList)
    else .error ()
  else
    if aD && bD then .ok (decide ((digitsToNat a.toList : Int) < (digitsToNat b.toList : Int)))
    else if !aD && !bD then .ok (strLtL a.toList b.toList)
    else .error ()

/-- Conditional pass of `process_response` (lines 767-791): the first block
is evaluated; a true condition removes every block shape from the text and
rendering continues, a false condition suppresses the whole response
(`return None`), and a mixed int/string ordering comparison raises. -/
def condPass (t : String) : Except Unit (Option String) :=
  match findCondMatch t.toList with
  | none => .ok (some t)
  | some (_, a, op, b, _) =>
    match condEval (String.mk a) op (String.mk b) with
    | .error e => .error e
    | .ok true => .ok (some (String.mk (condStripF (t.toList.length + 1) t.toList)))
    | .ok false => .ok none

/-- One outgoing message component (the AstrBot component constructors used
by `parse_special_commands`). -/
inductive Segment where
  | plain (text : String)
  | imageURL (url : String)
  | imageFile (path : String)
  | atUser (qq : String)
  | face (id : String)
  | reply (message_id : String)
  | record (file : String)
  | poke (qq : String)
deriving DecidableEq, Repr

/-- First `]` after a `[` with no intervening newline (the non-greedy
`\[.*?\]`): (inner text, text after). -/
def scanToClose (l : List Char) : Option (List Char × List Char) :=
  let inner := l.takeWhile (fun c => c ≠ ']' && c ≠ '\n')
  match l.dropWhile (fun c => c ≠ ']' && c ≠ '\n') with
  | ']' :: post => some (inner, post)
  | _ => none

/-- Split on `(\[.*?\])` keeping the captured delimiters (`re.split`):
unmatched runs and bracket tokens interleave, empty parts are kept (the
caller skips whitespace-only parts).  A `[` with no closing `]` in its
newline window is ordinary text. -/
def splitBracketsF : Nat → List Char → List Char → List (List Char)
  | 0, acc, rest => [acc.reverse ++ rest]
  | _ + 1, acc, [] => [acc.reverse]
  | fuel + 1, acc, '[' :: rest =>
    match scanToClose rest with
    | some (inner, post) =>
      acc.reverse :: ('[' :: (inner ++ [']'])) :: splitBracketsF fuel [] post
    | none => splitBracketsF fuel ('[' :: acc) rest
  | fuel + 1, acc, c :: rest => splitBracketsF fuel (c :: acc) rest

/-- Split of a rendered string on bracket tokens. -/
def splitBrackets (t : String) : List String :=
  (splitBracketsF (t.toList.length + 1) [] t.toList).map String.mk

/-- Python `str.split('.')`, keeping empty fields. -/
def splitOnDotAux : List Char → List Char → List (List Char)
  | acc, [] => [acc.reverse]
  | acc, c :: rest =>
    if c = '.' then acc.reverse :: splitOnDotAux [] rest
    else splitOnDotAux (c :: acc) rest

/-- Dot split of a directive body. -/
def splitOnDot (s : String) : List String :=
  (splitOnDotAux [] s.toList).map String.mk

/-- Python `'.'.join(parts)`. -/
def joinDot (parts : List String) : String :=
  match parts with
  | [] => ""
  | p :: rest => rest.foldl (fun acc q => acc ++ "." ++ q) p

/-- ASCII `str.lower()` (the recognized directive keys are ASCII or CJK;
CJK is unaffected in both Python and this model). -/
def asciiLower (s : String) : String :=
  String.mk (s.toList.map (fun c =>
    if 'A' ≤ c && c ≤ 'Z' then Char.ofNat (c.toNat + 32) else c))

/-- Python `str.startswith`. -/
def startsWithStr (s pre : String) : Bool := isPre pre.toList s.toList

/-- Python `str.endswith`. -/
def endsWithStr (s suf : String) : Bool :=
  isPre suf.toList.reverse s.toList.reverse

/-- Directive dispatch of `parse_special_commands` (src/main.py lines
796-873) for one split part: whitespace-only parts are skipped; a bracketed
part whose body has at least one dot dispatches on its lowered key — a
dotless bracketed body is dropped, since the source has no branch for it;
an unrecognized key falls back to the literal bracket text; any other part
is plain text.  The media constructors are modelled as always succeeding
(their try/except fallbacks never fire in the model). -/
def partToSegs (ctx : Ctx) (part : String) : List Segment :=
  if (pyStrip part).isEmpty then []
  else if startsWithStr part "[" && endsWithStr part "]" then
    let cmd := String.mk ((part.toList.drop 1).dropLast)
    let ps := splitOnDot cmd
    if 2 ≤ ps.length then
      let ct := asciiLower (ps.headD "")
      if ct = "image" || ct = "图片" then
        let url := joinDot (ps.drop 1)
        if startsWithStr url "http://" || startsWithStr url "https://" then
          [.imageURL url]
        else [.imageFile url]
      else if ct = "at" || ct = "艾特" then
        if ps.getD 1 "" ≠ "" then [.atUser (ps.getD 1 "")]
        else [.atUser ctx.sender_id]
      else if ct = "face" || ct = "表情" then
        if ps.getD 1 "" ≠ "" then [.face (ps.getD 1 "")] else []
      else if ct = "reply" || ct = "回复" then
        if ps.getD 1 "" ≠ "" then [.reply (ps.getD 1 "")]
        else [.reply ctx.message_id]
      else if ct = "record" || ct = "语音" then [.record (joinDot (ps.drop 1))]
      else if ct = "poke" then
        if 3 ≤ ps.length then [.poke (ps.getD 1 "")] else []
      else [.plain part]
    else []
  else [.plain part]

/-- Segment assembly, translated from `parse_special_commands` (src/main.py
lines 796-873). -/
def parse_special_commands (ctx : Ctx) (t : String) : List Segment :=
  ((splitBrackets t).map (partToSegs ctx)).flatten

/-- Template renderer, translated from `KeywordManager.process_response`
(src/main.py lines 671-794): wildcard substitution, context variables,
randomization, time variables, arithmetic, the conditional block, then
directive parsing — in that order.  The source first unpacks the search
result dict into the chosen template (`response["response"]`) and the
capture array (`response.get("matches", [])`); the model takes those two
directly.  `rng` supplies the entropy of the successive `random.randint`
draws and `now` the render-time clock.
`.error` marks the exceptions the source does not catch (`randint` on an
empty range, a mixed int/string ordering comparison); `.ok none` is the
suppressed response (`return None`).  Note: no pass touches the cooldown
directive shape `(\d+~)`. -/
def process_response (response : String) (captures : List String) (ctx : Ctx)
    (rng : Nat → Nat) (now : Now) : Except Unit (Option (List Segment)) :=
  let t1 := wildcardSubst captures response
  let t2 := ctxVars ctx t1
  match randomPass rng (countOpen t2.toList + 1) 0 t2.toList with
  | .error e => .error e
  | .ok l3 =>
    let t4 := timePass now (String.mk l3)
    let t5 := String.mk (arithLoop (countOpen t4.toList + 1) t4.toList)
    match condPass t5 with
    | .error e => .error e
    | .ok none => .ok none
    | .ok (some t6) => .ok (some (parse_special_commands ctx t6))

/-- Leftmost match of `\((\d+)~\)` (the cooldown directive shape the message
handlers scan for). -/
def findCooling : List Char → Option Nat
  | [] => none
  | '(' :: rest =>
    (match splitDigits rest with
     | ([], _) => findCooling rest
     | (ds, r1) =>
       match r1 with
       | '~' :: ')' :: _ => some (digitsToNat ds)
       | _ => findCooling rest)
  | _ :: rest => findCooling rest

/-- Cooldown extraction of the message handlers (src/main.py lines
1095-1101 and 1177-1183): after a response is sent, the chosen response
template is re-scanned for the first `\((\d+)~\)`; a zero duration means
"until the next local midnight", whose second count is supplied by the
caller (the datetime subtraction is outside the model). -/
def handler_cooling_seconds (response_template : String)
    (seconds_to_midnight : Nat) : Option Nat :=
  (findCooling response_template.toList).map
    (fun n => if n = 0 then seconds_to_midnight else n)

/-- Concrete message context for the concrete rendering theorems. -/
def ctx0 : Ctx := ⟨"10001", "20002", "测试者", "999", "555"⟩

/-- Concrete entropy source for the concrete rendering theorems. -/
def rng0 : Nat → Nat := fun _ => 0

/-- Concrete clock for the concrete rendering theorems. -/
def now0 : Now := ⟨2024, 1, 2, 3, 4, 5⟩

/-! Helper lemmas. -/

theorem alookup_filter_self {κ β : Type} [DecidableEq κ] (k : κ)
    (l rest : List (κ × β)) :
    alookup k (l.filter (fun p => decide (p.1 ≠ k)) ++ rest) = alookup k rest := by
  induction l with
  | nil => rfl
  | cons p t ih =>
    by_cases h : p.1 = k
    · simpa [List.filter_cons, h] using ih
    · simpa [List.filter_cons, h, alookup] using ih

theorem alookup_aset_self {κ β : Type} [DecidableEq κ] (k : κ) (v : β)
    (l : List (κ × β)) : alookup k (aset k v l) = some v := by
  simpa [aset, alookup] using alookup_filter_self k l [(k, v)]

theorem alookup_aerase_self {κ β : Type} [DecidableEq κ] (k : κ)
    (l : List (κ × β)) : alookup k (aerase k l) = none := by
  simpa [aerase, alookup] using alookup_filter_self k l ([] : List (κ × β))

theorem writeSlots_cons (init : List String) (p : Nat × String)
    (ps : List (Nat × String)) :
    writeSlots init (p :: ps) =
      writeSlots (if p.1 < 6 then init.set p.1 p.2 else init) ps := rfl

theorem writeSlots_length (pairs : List (Nat × String)) (init : List String) :
    (writeSlots init pairs).length = init.length := by
  induction pairs generalizing init with
  | nil => rfl
  | cons p ps ih =>
    rw [writeSlots_cons, ih]
    by_cases h : p.1 < 6 <;> simp [h]

theorem getD_set (l : List String) (k i : Nat) (v : String) (hk : k < l.length) :
    (l.set k v).getD i "" = if k = i then v else l.getD i "" := by
  induction l generalizing k i with
  | nil => simp at hk
  | cons a t ih =>
    cases k with
    | zero => cases i <;> simp [List.getD]
    | succ k' =>
      cases i with
      | zero => simp [List.getD]
      | succ i' =>
        have := ih k' i' (by simpa using hk)
        simpa [List.getD] using this

theorem getD_replicate_empty (n j : Nat) :
    (List.replicate n ("" : String)).getD j "" = "" := by
  induction n generalizing j with
  | zero => simp [List.getD]
  | succ n ih =>
    cases j with
    | zero => simp [List.replicate, List.getD]
    | succ j' => simp [List.replicate, List.getD]

theorem writeSlots_getD (pairs : List (Nat × String)) (init : List String)
    (i : Nat) (hi : i < 6) (hlen : init.length = 6) :
    (writeSlots init pairs).getD i "" =
      pairs.foldl (fun a pr => if pr.1 = i then pr.2 else a) (init.getD i "") := by
  induction pairs generalizing init with
  | nil => rfl
  | cons p ps ih =>
    obtain ⟨k, g⟩ := p
    rw [writeSlots_cons]
    by_cases hk : k < 6
    · simp only [hk, if_true]
      rw [ih (init.set k g) (by simpa using hlen)]
      have harg : (init.set k g).getD i "" = if k = i then g else init.getD i "" :=
        getD_set init k i g (by omega)
      simp only [List.foldl_cons, harg]
    · simp only [hk, if_false]
      rw [ih init hlen]
      have : ¬ k = i := by omega
      simp only [List.foldl_cons, this, if_false]

theorem pairMatch_not_admin {text k : String} {v : Rule}
    {res : MType × List String}
    (h : pairMatch text false k v = some res) : v.s ≠ some 10 := by
  intro hs
  simp [pairMatch, hs] at h

theorem pairMatch_exact_ne {text k : String} {v : Rule} (ad : Bool)
    (h1 : v.s = some 1) (h2 : k = text) : pairMatch text ad k v ≠ none := by
  simp only [pairMatch, h1]
  rw [if_neg (by simp)]
  cases hw : (if strContains k "[n." then match_wildcard k text else none) with
  | some m => simp
  | none => simp [h2]

theorem searchDocAux_sound {text : String} {ad : Bool} (doc : Doc) :
    ∀ (idx : Nat) {i : Nat} {k : String} {v : Rule} {mt : MType}
      {ms : List String},
      searchDocAux text ad idx doc = some (i, k, v, mt, ms) →
      pairMatch text ad k v = some (mt, ms) ∧
        ∃ j, i = idx + j ∧ doc.get? j = some (k, v) := by
  induction doc with
  | nil => intro idx i k v mt ms h; simp [searchDocAux] at h
  | cons hd rest ih =>
    intro idx i k v mt ms h
    obtain ⟨k0, v0⟩ := hd
    simp only [searchDocAux] at h
    cases h0 : pairMatch text ad k0 v0 with
    | some r =>
      obtain ⟨mt0, ms0⟩ := r
      rw [h0] at h
      simp only [Option.some.injEq, Prod.mk.injEq] at h
      obtain ⟨h1, h2, h3, h4, h5⟩ := h
      subst h1; subst h2; subst h3; subst h4; subst h5
      exact ⟨h0, 0, by omega, by simp⟩
    | none =>
      rw [h0] at h
      obtain ⟨hp, j, hj, hg⟩ := ih (idx + 1) h
      exact ⟨hp, j + 1, by omega, by simpa using hg⟩

theorem searchDocAux_exact {text : String} {ad : Bool} (doc : Doc) :
    ∀ (idx : Nat),
      (∃ j k v, doc.get? j = some (k, v) ∧ v.s = some 1 ∧ k = text) →
      searchDocAux text ad idx doc ≠ none := by
  induction doc with
  | nil =>
    intro idx h
    obtain ⟨j, k, v, hg, _, _⟩ := h
    simp at hg
  | cons hd rest ih =>
    intro idx h
    obtain ⟨j, k, v, hg, h1, h2⟩ := h
    obtain ⟨k0, v0⟩ := hd
    simp only [searchDocAux]
    cases h0 : pairMatch text ad k0 v0 with
    | some r => simp
    | none =>
      cases j with
      | zero =>
        simp only [List.get?_cons_zero, Option.some.injEq, Prod.mk.injEq] at hg
        obtain ⟨e1, e2⟩ := hg
        subst e1; subst e2
        exact absurd h0 (pairMatch_exact_ne ad h1 h2)
      | succ j' =>
        simp only [List.get?_cons_succ] at hg
        exact ih (idx + 1) ⟨j', k, v, hg, h1, h2⟩

theorem searchList_sound {store : Store} {text : String} {ad : Bool}
    (lids : List String) :
    ∀ {r : MatchResult},
      searchList store text ad lids = some r →
      ∃ v mt, searchDoc (storeGet store r.lexicon_id) text ad =
        some (r.item_index, r.keyword, v, mt, r.captures) ∧ v.r = r.responses := by
  induction lids with
  | nil => intro r h; simp [searchList] at h
  | cons lid rest ih =>
    intro r h
    simp only [searchList] at h
    cases h0 : searchDoc (storeGet store lid) text ad with
    | some res =>
      obtain ⟨i, k, v, mt, ms⟩ := res
      rw [h0] at h
      simp only [Option.some.injEq] at h
      subst h
      exact ⟨v, mt, h0, rfl⟩
    | none =>
      rw [h0] at h
      exact ih h

/-! Claim theorems. -/

/-- C1 (counterexample): the claim says the rendered output of
`process_response` has every `(\d+~)` occurrence removed; on the template
`"(30~)喵"` the renderer returns the single plain segment `"(30~)喵"`, in
which the directive shape still occurs — nothing in the render pipeline
strips it. -/
theorem c1_cex :
    process_response "(30~)喵" [] ctx0 rng0 now0 =
      .ok (some [.plain "(30~)喵"]) ∧
    strContains "(30~)喵" "(30~)" = true :=
  ⟨by rfl, by decide⟩

/-- C1 (amended): the render pipeline leaves the `(\d+~)` cooldown directive
in the output (template `"(30~)喵"` renders to the plain segment
`"(30~)喵"`); the numeric duration is still handled out-of-band: after
sending, the message handler re-scans the chosen template for the first
`(\d+~)` (duration 30 here, with 0 mapped to the seconds until next
midnight) and applies it via `CoolingManager.set_cooling`, which records
`expire_time = now + seconds`. -/
theorem c1_cooldown_out_of_band :
    process_response "(30~)喵" [] ctx0 rng0 now0 =
      .ok (some [.plain "(30~)喵"]) ∧
    handler_cooling_seconds "(30~)喵" 86400 = some 30 ∧
    ∀ (st : CoolState) (u L : String) (i : Nat) (secs : Int) (t0 : ℚ),
      alookup (u, i) ((alookup ("cooling_" ++ L)
        (set_cooling st u L i secs t0)).getD []) = some (t0 + (secs : ℚ)) := by
  refine ⟨by rfl, by decide, ?_⟩
  intro st u L i secs t0
  simp [set_cooling, alookup_aset_self]

/-- C2 (counterexample): the claim says a user override is used only when
present and non-empty; with `select = ("u" ↦ "")` and `switch = ("g" ↦ "x")`
the claimed resolution is "x", but `get_lexicon_id` returns the empty user
override "". -/
theorem c2_cex :
    get_lexicon_id [("u", "")] [("g", "x")] "g" "u" = "" ∧
    ("" : String) ≠ "x" :=
  ⟨by decide, by decide⟩

/-- C2 (amended): resolution precedence of `get_lexicon_id` for a non-empty
user id: (1) the user override whenever the key is present — even when its
value is empty; (2) else the scope override when present and non-empty;
(3) else `scope_id` itself when non-empty, and `"private_" ++ user_id` when
the scope id is empty.  In particular, when both overrides are set the user
override is returned. -/
theorem c2_resolution (sel sw : List (String × String)) (g u : String)
    (hu : u ≠ "") :
    (∀ v, alookup u sel = some v → get_lexicon_id sel sw g u = v) ∧
    (alookup u sel = none →
      (∀ w, g ≠ "" → alookup g sw = some w → w ≠ "" →
        get_lexicon_id sel sw g u = w) ∧
      (g ≠ "" → alookup g sw = none ∨ alookup g sw = some "" →
        get_lexicon_id sel sw g u = g) ∧
      (g = "" → get_lexicon_id sel sw g u = "private_" ++ u)) := by
  refine ⟨?_, ?_⟩
  · intro v hv
    simp [get_lexicon_id, hu, hv]
  · intro hn
    refine ⟨?_, ?_, ?_⟩
    · intro w hg hw hne
      simp [get_lexicon_id, hu, hn, hg, hw, hne]
    · intro hg hsw
      rcases hsw with h | h <;> simp [get_lexicon_id, hu, hn, hg, h]
    · intro hg
      simp [get_lexicon_id, hu, hn, hg]

/-- C2 (witness): the amended resolution at concrete configurations — a set
user override wins over a set scope override, and with no user override the
non-empty scope override is returned. -/
theorem c2_resolution_witness :
    get_lexicon_id [("u", "a")] [("g", "b")] "g" "u" = "a" ∧
    get_lexicon_id [] [("g", "b")] "g" "u" = "b" :=
  ⟨(c2_resolution [("u", "a")] [("g", "b")] "g" "u" (by decide)).1 "a" (by decide),
   ((c2_resolution [] [("g", "b")] "g" "u" (by decide)).2 (by decide)).1 "b"
     (by decide) (by decide) (by decide)⟩

/-- C3: the search scans `builtin_default` first; hence whenever the builtin
document contains an exact rule (`s = 1`) for the text — in particular when
the resolved document and the scope-default document also contain a rule for
that same exact pattern — the returned match carries
`lexicon_id = "builtin_default"`. -/
theorem c3_search_order (store : Store)
    (sel sw : List (String × String)) (text g u : String) (ad : Bool)
    (hb : ∃ j k v, (storeGet store "builtin_default").get? j = some (k, v) ∧
      v.s = some 1 ∧ k = text)
    (_hr : ∃ j k v,
      (storeGet store (get_lexicon_id sel sw g u)).get? j = some (k, v) ∧
      v.s = some 1 ∧ k = text)
    (_hd : ∃ j k v,
      (storeGet store (if g = "" then "private_" ++ u else g)).get? j =
        some (k, v) ∧ v.s = some 1 ∧ k = text) :
    ∃ r, search_keyword store sel sw text g u ad = some r ∧
      r.lexicon_id = "builtin_default" := by
  have hne : searchDoc (storeGet store "builtin_default") text ad ≠ none :=
    searchDocAux_exact (storeGet store "builtin_default") 0 hb
  cases hres : searchDoc (storeGet store "builtin_default") text ad with
  | none => exact absurd hres hne
  | some res =>
    obtain ⟨i, k, v, mt, ms⟩ := res
    refine ⟨⟨mt, v.r, ms, "builtin_default", i, k⟩, ?_, rfl⟩
    simp only [search_keyword, searchList]
    rw [hres]

/-- C3 (witness): a concrete store whose builtin, resolved ("g") and
scope-default ("g") documents all hold an exact rule for `"hi"`; the search
result's lexicon id is the builtin's. -/
theorem c3_search_order_witness :
    ∃ r, search_keyword
        [("builtin_default", [("hi", ⟨["A"], some 1⟩)]),
         ("g", [("hi", ⟨["B"], some 1⟩)])]
        [] [] "hi" "g" "u" false = some r ∧
      r.lexicon_id = "builtin_default" :=
  c3_search_order _ [] [] "hi" "g" "u" false
    ⟨0, "hi", ⟨["A"], some 1⟩, by decide, rfl, rfl⟩
    ⟨0, "hi", ⟨["B"], some 1⟩, by decide, rfl, rfl⟩
    ⟨0, "hi", ⟨["B"], some 1⟩, by decide, rfl, rfl⟩

/-- C4: with `is_privileged = false`, neither the per-document scan nor the
full search ever returns a match on a rule with visibility tag 10: every
returned match points at a rule whose tag is not 10 (the rule is skipped by
the gate before any wildcard, exact or fuzzy check). -/
theorem c4_admin_gate :
    (∀ (doc : Doc) (text : String) (i : Nat) (k : String) (v : Rule)
        (mt : MType) (ms : List String),
        searchDoc doc text false = some (i, k, v, mt, ms) →
        v.s ≠ some 10 ∧ doc.get? i = some (k, v)) ∧
    (∀ (store : Store) (sel sw : List (String × String)) (text g u : String)
        (r : MatchResult),
        search_keyword store sel sw text g u false = some r →
        ∃ v mt, searchDoc (storeGet store r.lexicon_id) text false =
            some (r.item_index, r.keyword, v, mt, r.captures) ∧
          v.s ≠ some 10) := by
  constructor
  · intro doc text i k v mt ms h
    obtain ⟨hp, j, hj, hg⟩ := searchDocAux_sound doc 0 h
    refine ⟨pairMatch_not_admin hp, ?_⟩
    have : i = j := by omega
    subst this
    exact hg
  · intro store sel sw text g u r h
    obtain ⟨v, mt, hd, _⟩ := searchList_sound _ h
    obtain ⟨hp, _⟩ := searchDocAux_sound _ 0 hd
    exact ⟨v, mt, hd, pairMatch_not_admin hp⟩

/-- C4 (witness): the per-document half applied to a concrete document with
a fuzzy rule matched by its own pattern. -/
theorem c4_admin_gate_witness :
    ((⟨["a"], some 0⟩ : Rule).s ≠ some 10) ∧
    ([("k", (⟨["a"], some 0⟩ : Rule))] : Doc).get? 0 =
      some ("k", ⟨["a"], some 0⟩) :=
  c4_admin_gate.1 [("k", ⟨["a"], some 0⟩)] "k" 0 "k" ⟨["a"], some 0⟩
    .fuzzy [] (by decide)

/-- C5: `match_wildcard` compiles `[n.K]` placeholders into an anchored
non-greedy match and always returns a fixed 6-slot array (slots 0-5),
assigning captures by placeholder suffix, leaving unmapped slots empty and
silently ignoring suffixes ≥ 6; in particular `"[n.1]多少好感"` against
`"小明多少好感"` puts `"小明"` in slot 1, `"[n.1]和[n.2]"` against `"A和B"`
puts `"A"` in slot 1 and `"B"` in slot 2, and a `[n.9]` pattern still
matches with all slots left empty. -/
theorem c5_wildcard_slots :
    (∀ (p t : String) (res : List String),
        match_wildcard p t = some res → res.length = 6) ∧
    match_wildcard "[n.1]多少好感" "小明多少好感" =
      some ["", "小明", "", "", "", ""] ∧
    match_wildcard "[n.1]和[n.2]" "A和B" = some ["", "A", "B", "", "", ""] ∧
    match_wildcard "[n.9]好" "小明好" = some ["", "", "", "", "", ""] := by
  refine ⟨?_, by decide, by decide, by decide⟩
  intro p t res h
  unfold match_wildcard at h
  cases hg : mwGroups p t with
  | none => rw [hg] at h; exact absurd h (by simp)
  | some gs =>
    rw [hg] at h
    simp only [Option.some.injEq] at h
    subst h
    rw [writeSlots_length]
    simp

/-- C5 (witness): the 6-slot length theorem applied at the second concrete
example. -/
theorem c5_wildcard_slots_witness :
    (["", "A", "B", "", "", ""] : List String).length = 6 :=
  c5_wildcard_slots.1 "[n.1]和[n.2]" "A和B" _ c5_wildcard_slots.2.2.1

/-- C6 (counterexample): the claim says a true condition strips just that
block; on `"{5>3}ok{1<2}x"` the source's global substitution removes both
blocks, rendering `"okx"` instead of the claimed `"ok{1<2}x"`. -/
theorem c6_cex :
    process_response "{5>3}ok{1<2}x" [] ctx0 rng0 now0 =
      .ok (some [.plain "okx"]) ∧
    ("okx" : String) ≠ "ok{1<2}x" :=
  ⟨by rfl, by decide⟩

/-- C6 (amended): the first conditional block is evaluated; a true condition
strips every `{A OP B}`-shaped block from the text (the substitution is
global) and rendering continues, while a false condition makes the renderer
return none, suppressing the entire response: `"{5>3}ok"` renders to
`"ok"`, `"{3>5}ok"` renders to nothing, and `"{5>3}ok{1<2}x"` renders to
`"okx"`. -/
theorem c6_conditional :
    process_response "{5>3}ok" [] ctx0 rng0 now0 = .ok (some [.plain "ok"]) ∧
    process_response "{3>5}ok" [] ctx0 rng0 now0 = .ok none ∧
    process_response "{5>3}ok{1<2}x" [] ctx0 rng0 now0 =
      .ok (some [.plain "okx"]) :=
  ⟨by rfl, by rfl, by rfl⟩

/-- C7: the arithmetic pass replaces `(+EXPR)` occurrences left to right by
the evaluated value with whole-number floats collapsed to integer strings —
`"(+2+3*4)"` renders to `"14"` — and any evaluation failure (unsafe
character, unparsable expression, division by zero) leaves the text exactly
as it stands and stops the loop — `"(+1/0)"` renders unchanged. -/
theorem c7_arith :
    (∀ (fuel : Nat) (t pre e post : List Char),
        findArith t = some (pre, e, post) → evaluate (String.mk e) = none →
        arithLoop (fuel + 1) t = t) ∧
    process_response "(+2+3*4)" [] ctx0 rng0 now0 =
      .ok (some [.plain "14"]) ∧
    process_response "(+1/0)" [] ctx0 rng0 now0 =
      .ok (some [.plain "(+1/0)"]) := by
  refine ⟨?_, by rfl, by rfl⟩
  intro fuel t pre e post hf he
  simp only [arithLoop]
  rw [hf]
  simp [he]

/-- C7 (witness): the fail-soft half applied at the concrete text
`"(+1/0)x"`, whose first arithmetic directive fails to evaluate. -/
theorem c7_arith_witness :
    arithLoop 1 ("(+1/0)x".toList) = ("(+1/0)x".toList) :=
  c7_arith.1 0 _ [] ['1', '/', '0'] ['x'] (by decide) (by decide)

/-- C8 (counterexample): with the sanitization flag on, adding the pattern
`"【a】"` to an empty document succeeds and stores the folded key `"[a]"`;
a second add of the same pattern `"【a】"` succeeds again (the duplicate
check runs on the raw pattern before folding), growing the document from one
rule to two — the claim says the second call fails and the count is
unchanged. -/
theorem c8_cex :
    (add_keyword true [] "【a】" "x" 0).1 = true ∧
    (add_keyword true (add_keyword true [] "【a】" "x" 0).2.2 "【a】" "x" 0).1 =
      true ∧
    ((add_keyword true [] "【a】" "x" 0).2.2).length = 1 ∧
    ((add_keyword true (add_keyword true [] "【a】" "x" 0).2.2 "【a】" "x"
      0).2.2).length = 2 := by
  refine ⟨by decide, by decide, by decide, by decide⟩

/-- C8 (amended): whenever the pattern is invariant under the optional
sanitization (in particular whenever the `mistake_turn_type` flag is off),
adding a pattern not yet in the document succeeds and appends exactly one
rule, and a second add with the same pattern fails and leaves the document
unchanged.  (With the flag on, a pattern altered by sanitization evades the
duplicate check, as the counterexample shows.) -/
theorem c8_duplicate_add (mistake : Bool) (work : Doc)
    (k resp resp2 : String) (m m2 : Int)
    (hs : mistake = false ∨ sanitizeKeyword k = k)
    (hnot : ∀ it ∈ work, it.1 ≠ k) :
    (add_keyword mistake work k resp m).1 = true ∧
    (add_keyword mistake work k resp m).2.2 =
      work ++ [(k, ⟨[resp], some m⟩)] ∧
    (add_keyword mistake (work ++ [(k, ⟨[resp], some m⟩)]) k resp2 m2).1 =
      false ∧
    (add_keyword mistake (work ++ [(k, ⟨[resp], some m⟩)]) k resp2 m2).2.2 =
      work ++ [(k, ⟨[resp], some m⟩)] := by
  have hany : work.any (fun it => decide (it.1 = k)) = false := by
    simp only [List.any_eq_false, decide_eq_true_eq]
    exact hnot
  have hany2 : (work ++ [(k, (⟨[resp], some m⟩ : Rule))]).any
      (fun it => decide (it.1 = k)) = true := by
    simp [List.any_append]
  have hkw : (if mistake then sanitizeKeyword k else k) = k := by
    rcases hs with h | h
    · simp [h]
    · simp [h]
  refine ⟨?_, ?_, ?_, ?_⟩ <;>
    simp [add_keyword, hany, hany2, hkw]

/-- C8 (witness): the amended add semantics at a concrete empty document and
the pattern "hi" (flag off). -/
theorem c8_duplicate_add_witness :
    (add_keyword false [] "hi" "yo" 1).1 = true ∧
    (add_keyword false [] "hi" "yo" 1).2.2 =
      [] ++ [("hi", ⟨["yo"], some 1⟩)] ∧
    (add_keyword false ([] ++ [("hi", ⟨["yo"], some 1⟩)]) "hi" "yo2" 0).1 =
      false ∧
    (add_keyword false ([] ++ [("hi", ⟨["yo"], some 1⟩)]) "hi" "yo2" 0).2.2 =
      [] ++ [("hi", ⟨["yo"], some 1⟩)] :=
  c8_duplicate_add false [] "hi" "yo" "yo2" 1 0 (Or.inl rfl)
    (by intro it hit; simp at hit)

/-- C9: immediately after `set(u, L, i, 60)` at time `t0`, a check at any
time `t1` with `t0 ≤ t1 ≤ t0 + 59` returns a remaining value in `[1, 60]`;
once the time reaches or passes the entry's expiry (`t1 ≥ t0 + 60`) the
check returns clear and lazily evicts the entry; and a remaining value that
truncates to 0 (`t0 + 59 < t1 < t0 + 60`) is reported as clear. -/
theorem c9_cooldown (st : CoolState) (u L : String) (i : Nat) (t0 t1 : ℚ) :
    ((t0 ≤ t1) → (t1 ≤ t0 + 59) →
      ∃ n, (check_cooling (set_cooling st u L i 60 t0) u L i t1).1 =
          .remaining n ∧ 1 ≤ n ∧ n ≤ 60) ∧
    ((t0 + 60 ≤ t1) →
      (check_cooling (set_cooling st u L i 60 t0) u L i t1).1 = .clear ∧
      alookup (u, i) ((alookup ("cooling_" ++ L)
        (check_cooling (set_cooling st u L i 60 t0) u L i t1).2).getD []) =
        none) ∧
    ((t0 + 59 < t1) → (t1 < t0 + 60) →
      (check_cooling (set_cooling st u L i 60 t0) u L i t1).1 = .clear) := by
  have hexp : ((60 : Int) : ℚ) = (60 : ℚ) := by norm_num
  have hck : alookup ("cooling_" ++ L) (set_cooling st u L i 60 t0) =
      some (aset (u, i) (t0 + (60 : ℚ))
        ((alookup ("cooling_" ++ L) st).getD [])) := by
    simp only [set_cooling, hexp]
    exact alookup_aset_self _ _ _
  have hkey : alookup (u, i) (aset (u, i) (t0 + (60 : ℚ))
      ((alookup ("cooling_" ++ L) st).getD [])) = some (t0 + 60) :=
    alookup_aset_self _ _ _
  refine ⟨?_, ?_, ?_⟩
  · intro h0 h59
    have hlt : ¬ (t1 ≥ t0 + 60) := by push_neg; linarith
    have hq0 : (0 : ℚ) ≤ t0 + 60 - t1 := by linarith
    have h1 : (1 : ℤ) ≤ ⌊t0 + 60 - t1⌋ := by
      rw [Int.le_floor]; push_cast; linarith
    have h2 : ⌊t0 + 60 - t1⌋ ≤ 60 := by
      have : ⌊t0 + 60 - t1⌋ ≤ ⌊(60 : ℚ)⌋ := Int.floor_le_floor (by linarith)
      simpa using this
    refine ⟨⌊t0 + 60 - t1⌋, ?_, h1, h2⟩
    simp only [check_cooling, hck, hkey, hlt, if_false, pyTrunc, hq0, if_pos]
    have hpos : (0 : ℤ) < ⌊t0 + 60 - t1⌋ := by omega
    simp [hpos]
  · intro h60
    have hge : t1 ≥ t0 + 60 := by linarith
    constructor
    · simp [check_cooling, hck, hkey, hge]
    · simp only [check_cooling, hck, hkey, hge, if_true]
      rw [alookup_aset_self]
      simp [alookup_aerase_self]
  · intro ha hb
    have hlt : ¬ (t1 ≥ t0 + 60) := by push_neg; linarith
    have hq0 : (0 : ℚ) ≤ t0 + 60 - t1 := by linarith
    have hfz : ⌊t0 + 60 - t1⌋ = 0 := by
      rw [Int.floor_eq_zero_iff]
      exact Set.mem_Ico.mpr ⟨by linarith, by linarith⟩
    simp [check_cooling, hck, hkey, hlt, pyTrunc, hq0, hfz]

/-- C9 (witness): the cooldown check/set semantics at concrete times — a
check at the set time returns a value in `[1, 60]`, a check 60 seconds later
is clear with the entry evicted, and a check at 59.5 seconds is clear. -/
theorem c9_cooldown_witness :
    (∃ n, (check_cooling (set_cooling [] "u" "L" 0 60 0) "u" "L" 0 0).1 =
        .remaining n ∧ 1 ≤ n ∧ n ≤ 60) ∧
    ((check_cooling (set_cooling [] "u" "L" 0 60 0) "u" "L" 0 60).1 =
        .clear ∧
      alookup ("u", 0) ((alookup ("cooling_" ++ "L")
        (check_cooling (set_cooling [] "u" "L" 0 60 0) "u" "L" 0 60).2).getD
          []) = none) ∧
    (check_cooling (set_cooling [] "u" "L" 0 60 0) "u" "L" 0
        (119 / 2 : ℚ)).1 = .clear :=
  ⟨(c9_cooldown [] "u" "L" 0 0 0).1 (by norm_num) (by norm_num),
   (c9_cooldown [] "u" "L" 0 0 60).2.1 (by norm_num),
   (c9_cooldown [] "u" "L" 0 0 (119 / 2)).2.2 (by norm_num) (by norm_num)⟩

/-- C10: when a pattern repeats a placeholder index, `match_wildcard` writes
the occurrences' captures into that slot in order of appearance, so each
slot `i < 6` ends up holding the capture of the last pair for `i` in the
(placeholder, group) zip — i.e. the last occurrence of that index wins. -/
theorem c10_repeated_placeholder (p t : String) (gs : List (List Char))
    (res : List String) (i : Nat)
    (hg : mwGroups p t = some gs)
    (hw : match_wildcard p t = some res)
    (hi : i < 6) :
    res.getD i "" =
      ((phIdxs p).zip (gs.map String.mk)).foldl
        (fun a pr => if pr.1 = i then pr.2 else a) "" := by
  unfold match_wildcard at hw
  rw [hg] at hw
  simp only [Option.some.injEq] at hw
  subst hw
  rw [writeSlots_getD _ _ i hi (by simp)]
  rw [getD_replicate_empty]

/-- C10 (witness): the repeated-index theorem at the concrete pattern
`"[n.1]和[n.1]"` matched against `"A和B"`: slot 1 holds the capture of the
last occurrence, `"B"`. -/
theorem c10_repeated_placeholder_witness :
    (["", "B", "", "", "", ""] : List String).getD 1 "" = "B" := by
  have h := c10_repeated_placeholder "[n.1]和[n.1]" "A和B" [['A'], ['B']]
    ["", "B", "", "", "", ""] 1 (by decide) (by decide) (by decide)
  rw [h]
  decide

end Van
